import Mathlib

/-!
Verification development for the mira-minimal repository.

The repository's Datadog MCP server (src/datadog-mcp) is shallowly embedded
here: each TypeScript tool handler becomes a Lean function parameterised by
the Datadog API call it wraps (the API itself is an external collaborator and
is modelled as a function returning `Except Thrown Json`: `.ok` for a resolved
promise, `.error` for a rejected one).  Components of the orchestration core
that the specification describes but whose implementation files are not part
of the provided sources (RPC engine routing, negotiation gate, state store,
pipeline executor) are modelled from the specification text; each such
definition says so in its doc comment.
-/

namespace Mira

/-- JSON values, the shape of Datadog API responses as the handlers see them
(numbers restricted to integers; the claims do not depend on numeric
formatting). -/
inductive Json where
  | null : Json
  | bool : Bool → Json
  | num : Int → Json
  | str : String → Json
  | arr : List Json → Json
  | obj : List (String × Json) → Json

/-- String escaping as performed by JSON.stringify for quote and backslash
characters (control-character escapes are not modelled; no claim depends on
them). -/
def jsonEscape (s : String) : String :=
  s.foldl
    (fun acc c =>
      acc ++ (if c = '"' then "\\\"" else if c = '\\' then "\\\\" else String.singleton c))
    ""

mutual

/-- Models JavaScript JSON.stringify(v, null, 2) up to insignificant
whitespace: the handlers pass their response through this serialization. -/
def jsonStringify : Json → String
  | .null => "null"
  | .bool true => "true"
  | .bool false => "false"
  | .num n => toString n
  | .str s => "\"" ++ jsonEscape s ++ "\""
  | .arr xs => "[" ++ jsonStringifyArr xs ++ "]"
  | .obj fs => "\x7b" ++ jsonStringifyObj fs ++ "\x7d"

/-- Comma-separated serialization of a JSON array's elements. -/
def jsonStringifyArr : List Json → String
  | [] => ""
  | [x] => jsonStringify x
  | x :: xs => jsonStringify x ++ "," ++ jsonStringifyArr xs

/-- Comma-separated serialization of a JSON object's fields. -/
def jsonStringifyObj : List (String × Json) → String
  | [] => ""
  | [(k, v)] => "\"" ++ jsonEscape k ++ "\":" ++ jsonStringify v
  | (k, v) :: fs => "\"" ++ jsonEscape k ++ "\":" ++ jsonStringify v ++ "," ++ jsonStringifyObj fs

end

/-- One element of an MCP tool result's content array; every handler in this
server only ever produces elements with type "text". -/
structure TextContent where
  type : String
  text : String
deriving Repr, DecidableEq

/-- The value an MCP tool handler returns: a content array and an optional
isError flag (`none` models the absent field of the TypeScript object
literal). -/
structure ToolResult where
  content : List TextContent
  isError : Option Bool := none
deriving Repr, DecidableEq

/-- A JavaScript thrown value as discriminated by the handlers' catch blocks:
either an Error instance carrying a message, or any other value. -/
inductive Thrown where
  | errorInstance : String → Thrown
  | nonError : Thrown
deriving Repr, DecidableEq

/-- The expression `error instanceof Error ? error.message : 'Unknown error'`
appearing in every catch block of the five tool handlers. -/
def errorMessageOf : Thrown → String
  | .errorInstance msg => msg
  | .nonError => "Unknown error"

/-- Request object built by the query_metrics handler for
metricsApi.queryMetrics (src/tools/metrics.ts). -/
structure QueryMetricsRequest where
  «from» : Int
  «to» : Int
  query : String
deriving Repr, DecidableEq

/-- The query_metrics handler closure from configureMetricsTools
(src/tools/metrics.ts lines 27-65), with the awaited API call modelled as a
function argument; a rejected promise is the `.error` case and never escapes
the handler. -/
def queryMetricsHandler (api : QueryMetricsRequest → Except Thrown Json)
    (query : String) (fromArg toArg : Int) : ToolResult :=
  match api { «from» := fromArg, «to» := toArg, query := query } with
  | .ok response =>
      { content := [{ type := "text", text := jsonStringify response }] }
  | .error err =>
      { content := [{ type := "text", text := "Error querying metrics: " ++ errorMessageOf err }],
        isError := some true }

/-- Filter object of the search_logs request body (src/tools/logs.ts). -/
structure LogsFilter where
  query : String
  «from» : String
  «to» : String
deriving Repr, DecidableEq

/-- Page object of the search_logs request body. -/
structure LogsPage where
  limit : Int
deriving Repr, DecidableEq

/-- Body of the listLogs request (filter, page, sort). -/
structure ListLogsBody where
  filter : LogsFilter
  page : LogsPage
  sort : String
deriving Repr, DecidableEq

/-- The v2.LogsApiListLogsRequest object built by the search_logs handler. -/
structure ListLogsRequest where
  body : ListLogsBody
deriving Repr, DecidableEq

/-- Request construction of the search_logs handler (src/tools/logs.ts lines
36-48).  The limit argument's zod schema is optional with default 100, so an
omitted limit (`none`) reaches the API as 100 and a provided one reaches it
unchanged. -/
def searchLogsRequest (query fromArg toArg : String) (limitArg : Option Int) :
    ListLogsRequest :=
  let limit := limitArg.getD 100
  { body :=
      { filter := { query := query, «from» := fromArg, «to» := toArg },
        page := { limit := limit },
        sort := "timestamp" } }

/-- The search_logs handler closure from configureLogsTools (src/tools/logs.ts
lines 32-79), with logsApi.listLogs modelled as a function argument. -/
def searchLogsHandler (api : ListLogsRequest → Except Thrown Json)
    (query fromArg toArg : String) (limitArg : Option Int) : ToolResult :=
  match api (searchLogsRequest query fromArg toArg limitArg) with
  | .ok response =>
      { content := [{ type := "text", text := jsonStringify response }] }
  | .error err =>
      { content := [{ type := "text", text := "Error searching logs: " ++ errorMessageOf err }],
        isError := some true }

/-- Request object built by the get_monitor handler for monitorsApi.getMonitor
(src/tools/monitors.ts). -/
structure GetMonitorRequest where
  monitorId : Int
deriving Repr, DecidableEq

/-- The get_monitor handler closure from configureMonitorsTools
(src/tools/monitors.ts lines 19-55). -/
def getMonitorHandler (api : GetMonitorRequest → Except Thrown Json)
    (monitorId : Int) : ToolResult :=
  match api { monitorId := monitorId } with
  | .ok response =>
      { content := [{ type := "text", text := jsonStringify response }] }
  | .error err =>
      { content := [{ type := "text", text := "Error getting monitor: " ++ errorMessageOf err }],
        isError := some true }

/-- Params object built by the list_monitors handler: tags joined with commas
when present and non-empty, name when present and truthy (src/tools/monitors.ts
lines 75-81). -/
structure ListMonitorsParams where
  tags : Option String := none
  name : Option String := none
deriving Repr, DecidableEq

/-- Params construction of the list_monitors handler, mirroring the two `if`
statements of the source (JavaScript truthiness: an empty name string adds no
field). -/
def listMonitorsParams (tags : Option (List String)) (name : Option String) :
    ListMonitorsParams :=
  let params : ListMonitorsParams := {}
  let params :=
    match tags with
    | some ts => if ts.length > 0 then { params with tags := some (String.intercalate "," ts) } else params
    | none => params
  match name with
  | some n => if n ≠ "" then { params with name := some n } else params
  | none => params

/-- The list_monitors handler closure from configureMonitorsTools
(src/tools/monitors.ts lines 71-112). -/
def listMonitorsHandler (api : ListMonitorsParams → Except Thrown Json)
    (tags : Option (List String)) (name : Option String) : ToolResult :=
  match api (listMonitorsParams tags name) with
  | .ok response =>
      { content := [{ type := "text", text := jsonStringify response }] }
  | .error err =>
      { content := [{ type := "text", text := "Error listing monitors: " ++ errorMessageOf err }],
        isError := some true }

/-- Filter object of the search_spans request (src/tools/traces.ts). -/
structure SpansFilter where
  query : String
  «from» : String
  «to» : String
deriving Repr, DecidableEq

/-- Page object of the search_spans request. -/
structure SpansPage where
  limit : Int
deriving Repr, DecidableEq

/-- Attributes object of the search_spans request data. -/
structure SpansAttributes where
  filter : SpansFilter
  page : SpansPage
  sort : String
deriving Repr, DecidableEq

/-- Data object of the search_spans request body. -/
structure SpansData where
  attributes : SpansAttributes
  type : String
deriving Repr, DecidableEq

/-- Body of the listSpans request. -/
structure ListSpansBody where
  data : SpansData
deriving Repr, DecidableEq

/-- The v2.SpansApiListSpansRequest object built by the search_spans handler;
filter and page sit nested under body.data.attributes. -/
structure ListSpansRequest where
  body : ListSpansBody
deriving Repr, DecidableEq

/-- Request construction of the search_spans handler (src/tools/traces.ts
lines 36-53); the limit argument's zod schema is optional with default 100. -/
def searchSpansRequest (query fromArg toArg : String) (limitArg : Option Int) :
    ListSpansRequest :=
  let limit := limitArg.getD 100
  { body :=
      { data :=
          { attributes :=
              { filter := { query := query, «from» := fromArg, «to» := toArg },
                page := { limit := limit },
                sort := "timestamp" },
            type := "search_request" } } }

/-- The search_spans handler closure from configureTracesTools
(src/tools/traces.ts lines 32-84), with spansApi.listSpans modelled as a
function argument. -/
def searchSpansHandler (api : ListSpansRequest → Except Thrown Json)
    (query fromArg toArg : String) (limitArg : Option Int) : ToolResult :=
  match api (searchSpansRequest query fromArg toArg limitArg) with
  | .ok response =>
      { content := [{ type := "text", text := jsonStringify response }] }
  | .error err =>
      { content := [{ type := "text", text := "Error searching spans: " ++ errorMessageOf err }],
        isError := some true }

/-- The Domain union type of src/shared/domains.ts. -/
inductive Domain where
  | metrics
  | logs
  | monitors
  | traces
deriving Repr, DecidableEq

/-- The string literal of each Domain member in the TypeScript union. -/
def Domain.name : Domain → String
  | .metrics => "metrics"
  | .logs => "logs"
  | .monitors => "monitors"
  | .traces => "traces"

/-- ALL_DOMAINS from src/shared/domains.ts. -/
def ALL_DOMAINS : List Domain := [.metrics, .logs, .monitors, .traces]

/-- The test `ALL_DOMAINS.includes(domain as Domain)` on an arbitrary string,
together with the cast that follows it: `some d` exactly when the string is a
member of the union. -/
def domainOfString : String → Option Domain
  | "metrics" => some .metrics
  | "logs" => some .logs
  | "monitors" => some .monitors
  | "traces" => some .traces
  | _ => none

/-- The loop body of parseDomains (src/shared/domains.ts lines 20-28): valid
domains are pushed onto the accumulator, the first invalid one throws. -/
def parseDomainsGo : List String → List Domain → Except String (List Domain)
  | [], validDomains => .ok validDomains
  | domain :: rest, validDomains =>
      match domainOfString domain with
      | some d => parseDomainsGo rest (validDomains ++ [d])
      | none =>
          .error ("Invalid domain: " ++ domain ++ ". Valid domains: "
            ++ String.intercalate ", " (ALL_DOMAINS.map Domain.name))

/-- parseDomains from src/shared/domains.ts lines 17-31: thrown errors are the
`.error` case; an empty valid result falls back to ALL_DOMAINS. -/
def parseDomains (domains : List String) : Except String (List Domain) :=
  match parseDomainsGo domains [] with
  | .ok validDomains => .ok (if validDomains.length > 0 then validDomains else ALL_DOMAINS)
  | .error e => .error e

/-- One server.tool registration, reduced to the data the registration claims
are about: the McpServer is modelled by its ordered list of registrations, and
the handler closures are the standalone functions above. -/
structure ToolRegistration where
  name : String
  description : String
deriving Repr, DecidableEq

/-- configureMetricsTools (src/tools/metrics.ts) as a transformation of the
server's registration list: registers query_metrics. -/
def configureMetricsTools (server : List ToolRegistration) : List ToolRegistration :=
  server ++ [{ name := "query_metrics",
               description := "Query Datadog metric timeseries data for a given time range" }]

/-- configureLogsTools (src/tools/logs.ts): registers search_logs. -/
def configureLogsTools (server : List ToolRegistration) : List ToolRegistration :=
  server ++ [{ name := "search_logs",
               description := "Search Datadog logs with a query and time range" }]

/-- configureMonitorsTools (src/tools/monitors.ts): registers get_monitor and
then list_monitors. -/
def configureMonitorsTools (server : List ToolRegistration) : List ToolRegistration :=
  server ++ [{ name := "get_monitor",
               description := "Get details of a specific Datadog monitor by ID" },
             { name := "list_monitors",
               description := "List all Datadog monitors with optional filtering" }]

/-- configureTracesTools (src/tools/traces.ts): registers search_spans. -/
def configureTracesTools (server : List ToolRegistration) : List ToolRegistration :=
  server ++ [{ name := "search_spans",
               description := "Search APM spans/traces with a query and time range" }]

/-- registerTools from src/tools.ts lines 13-51: each domain's configure
function runs exactly when the domain is in enabledDomains, in source order
metrics, logs, monitors, traces. -/
def registerTools (enabledDomains : List Domain) : List ToolRegistration :=
  let configureIfDomainEnabled :=
    fun (domain : Domain) (configureFn : List ToolRegistration → List ToolRegistration)
        (server : List ToolRegistration) =>
      if domain ∈ enabledDomains then configureFn server else server
  configureIfDomainEnabled .traces configureTracesTools
    (configureIfDomainEnabled .monitors configureMonitorsTools
      (configureIfDomainEnabled .logs configureLogsTools
        (configureIfDomainEnabled .metrics configureMetricsTools [])))

/-- The names carried by a server's registrations. -/
def registeredNames (server : List ToolRegistration) : List String :=
  server.map ToolRegistration.name

/-- The two standard streams a process can write to. -/
inductive StdStream where
  | stdout
  | stderr
deriving Repr, DecidableEq

/-- The winston logger configuration built in src/shared/domains.ts lines
43-55: level from LOG_LEVEL (default "info") and a single Stream transport
bound to process.stderr. -/
structure LoggerConfig where
  level : String
  transports : List StdStream
deriving Repr, DecidableEq

/-- The createLogger call of src/shared/domains.ts, parameterised by the
LOG_LEVEL environment variable. -/
def createLogger (envLogLevel : Option String) : LoggerConfig :=
  { level := envLogLevel.getD "info",
    transports := [StdStream.stderr] }

/-- A winston logger writes each record it emits to every configured transport
stream and to nothing else; the result lists the (stream, record) writes of one
logging call. -/
def emitRecord (cfg : LoggerConfig) (record : String) : List (StdStream × String) :=
  cfg.transports.map (fun t => (t, record))

/-- Modelled from the spec: the RPC Engine's routing state (§4.2) — the Engine
implementation is not among the provided source files.  `pending` holds the
correlation ids of outstanding calls, `delivered` the (id, payload) pairs
handed to their waiting callers, in delivery order. -/
structure EngineState where
  pending : List Nat
  delivered : List (Nat × Json)

/-- Modelled from the spec: processing one incoming Response (§4.2) — a
response whose id matches a pending call resolves that call (the id leaves the
pending set and the payload is delivered to it); responses for unknown or
already-resolved ids are logged and discarded. -/
def deliverResponse (st : EngineState) (resp : Nat × Json) : EngineState :=
  if resp.1 ∈ st.pending then
    { pending := st.pending.erase resp.1, delivered := st.delivered ++ [resp] }
  else
    st

/-- Modelled from the spec: a sequence of Responses arriving on one Connection,
processed in arrival order. -/
def deliverAll (st : EngineState) (resps : List (Nat × Json)) : EngineState :=
  resps.foldl deliverResponse st

/-- Modelled from the spec: the kinds of call issued on a Connection (§4.3) —
the negotiation exchange or an ordinary method call. -/
inductive CallKind where
  | negotiate
  | other (method : String)
deriving Repr, DecidableEq

/-- Modelled from the spec: the Engine's visible verdict on one call for the
negotiation gate — accepted for processing, or rejected with NotNegotiated. -/
inductive CallOutcome where
  | accepted
  | rejectedNotNegotiated
deriving Repr, DecidableEq

/-- Modelled from the spec: the per-Connection negotiation flag (§4.3), false
on a fresh Connection. -/
structure ConnState where
  negotiated : Bool
deriving Repr, DecidableEq

/-- A fresh Connection before any call. -/
def initialConn : ConnState := { negotiated := false }

/-- Modelled from the spec: the Engine's gate on one call (§4.3) — negotiation
completes and marks the Connection negotiated; a non-negotiation call on an
unnegotiated Connection is rejected with NotNegotiated and changes nothing. -/
def stepCall (st : ConnState) : CallKind → ConnState × CallOutcome
  | .negotiate => ({ negotiated := true }, .accepted)
  | .other _ =>
      if st.negotiated then (st, .accepted) else (st, .rejectedNotNegotiated)

/-- Modelled from the spec: a sequence of calls issued on one Connection,
yielding the outcome of each in order. -/
def runCalls (st : ConnState) : List CallKind → List CallOutcome
  | [] => []
  | c :: rest =>
      let (st2, outcome) := stepCall st c
      outcome :: runCalls st2 rest

/-- Modelled from the spec: the State Store (§4.5) — an insertion-ordered
mapping from output key to value, represented as the list of bindings in
insertion order. -/
abbrev StateStore := List (String × String)

/-- Modelled from the spec: the State Store's error kinds (§4.5/§7). -/
inductive StoreError where
  | duplicateKey (key : String)
  | missingKey (key : String)
deriving Repr, DecidableEq

/-- Modelled from the spec: set(key, value) (§4.5) — fails with DuplicateKey
when the key is already set, otherwise appends the binding (write-once per
session). -/
def StateStore.set (store : StateStore) (key value : String) :
    Except StoreError StateStore :=
  if store.any (fun e => e.1 = key) then .error (.duplicateKey key)
  else .ok (store ++ [(key, value)])

/-- Modelled from the spec: get(key) (§4.5) — the value bound to the key, or
MissingKey when absent. -/
def StateStore.get (store : StateStore) (key : String) : Except StoreError String :=
  match store.find? (fun e => e.1 = key) with
  | some e => .ok e.2
  | none => .error (.missingKey key)

/-- Modelled from the spec: a session's writes applied through set in order; a
failed set leaves the store unchanged and the session continues with it. -/
def applySets (store : StateStore) : List (String × String) → StateStore
  | [] => store
  | (k, v) :: rest =>
      match store.set k v with
      | .ok store2 => applySets store2 rest
      | .error _ => applySets store rest

/-- Modelled from the spec: one Pipeline Executor stage (§4.6) — a declared
output key and a body that, given the current State Store (from which its
instructions are rendered), either produces the stage output or fails with a
cause.  The body covers both render failure and stage-body failure. -/
structure Stage where
  key : String
  body : StateStore → Except String String

/-- Modelled from the spec: a session's terminal status (§4.6). -/
inductive PipeStatus where
  | completed
  | failed (stageIndex : Nat) (cause : String)
deriving Repr, DecidableEq

/-- Modelled from the spec: the Pipeline Executor's loop (§4.6) — stages run
strictly in order; a stage failure ends the run as Failed(i, cause) with no
output written for that stage and no later stage run; a successful stage's
output is set under its key.  The returned list records the indices of the
stages that started, in order. -/
def runStages : List Stage → Nat → StateStore → List Nat →
    PipeStatus × StateStore × List Nat
  | [], _, store, ran => (.completed, store, ran)
  | stage :: rest, i, store, ran =>
      match stage.body store with
      | .error cause => (.failed i cause, store, ran ++ [i])
      | .ok output =>
          match store.set stage.key output with
          | .error _ => (.failed i "DuplicateKey", store, ran ++ [i])
          | .ok store2 => runStages rest (i + 1) store2 (ran ++ [i])

/-- Modelled from the spec: one session of the Pipeline Executor starting from
an empty State Store at stage index 0. -/
def runPipeline (stages : List Stage) : PipeStatus × StateStore × List Nat :=
  runStages stages 0 [] []

/-- A concrete three-stage pipeline whose middle stage fails, matching the
specification's scenario "stage 2 of 3 fails". -/
def demoStages : List Stage :=
  [{ key := "k0", body := fun _ => .ok "out0" },
   { key := "k1", body := fun _ => .error "boom" },
   { key := "k2", body := fun _ => .ok "out2" }]

end Mira

namespace Mira

/-- C1: for every registered tool handler (query_metrics, search_logs,
get_monitor, list_monitors, search_spans), whenever the underlying Datadog API
call rejects, the handler returns normally (the handlers are total functions
into ToolResult, so no exception reaches the protocol layer) with a result
whose isError field is true and whose content is a single text element
containing the thrown error's message — which errorMessageOf extracts, giving
"Unknown error" for a non-Error thrown value, as the last two conjuncts
record. -/
theorem toolHandlers_reject_with_structured_error
    (mApi : QueryMetricsRequest → Except Thrown Json)
    (lApi : ListLogsRequest → Except Thrown Json)
    (gApi : GetMonitorRequest → Except Thrown Json)
    (moApi : ListMonitorsParams → Except Thrown Json)
    (sApi : ListSpansRequest → Except Thrown Json)
    (err : Thrown) :
    (∀ query fromArg toArg,
      mApi { «from» := fromArg, «to» := toArg, query := query } = .error err →
      queryMetricsHandler mApi query fromArg toArg =
        { content := [{ type := "text", text := "Error querying metrics: " ++ errorMessageOf err }],
          isError := some true })
    ∧ (∀ query fromArg toArg limitArg,
      lApi (searchLogsRequest query fromArg toArg limitArg) = .error err →
      searchLogsHandler lApi query fromArg toArg limitArg =
        { content := [{ type := "text", text := "Error searching logs: " ++ errorMessageOf err }],
          isError := some true })
    ∧ (∀ monitorId,
      gApi { monitorId := monitorId } = .error err →
      getMonitorHandler gApi monitorId =
        { content := [{ type := "text", text := "Error getting monitor: " ++ errorMessageOf err }],
          isError := some true })
    ∧ (∀ tags name,
      moApi (listMonitorsParams tags name) = .error err →
      listMonitorsHandler moApi tags name =
        { content := [{ type := "text", text := "Error listing monitors: " ++ errorMessageOf err }],
          isError := some true })
    ∧ (∀ query fromArg toArg limitArg,
      sApi (searchSpansRequest query fromArg toArg limitArg) = .error err →
      searchSpansHandler sApi query fromArg toArg limitArg =
        { content := [{ type := "text", text := "Error searching spans: " ++ errorMessageOf err }],
          isError := some true })
    ∧ (∀ msg, errorMessageOf (Thrown.errorInstance msg) = msg)
    ∧ errorMessageOf Thrown.nonError = "Unknown error" := by
  refine ⟨?_, ?_, ?_, ?_, ?_, fun msg => rfl, rfl⟩
  · intro query fromArg toArg h
    simp [queryMetricsHandler, h]
  · intro query fromArg toArg limitArg h
    simp [searchLogsHandler, h]
  · intro monitorId h
    simp [getMonitorHandler, h]
  · intro tags name h
    simp [listMonitorsHandler, h]
  · intro query fromArg toArg limitArg h
    simp [searchSpansHandler, h]

/-- Witness for C1: a rejected metrics call with an Error instance, and a
rejected monitors call with a non-Error thrown value, both produce the
structured failure result. -/
theorem toolHandlers_reject_with_structured_error_witness :
    queryMetricsHandler (fun _ => .error (.errorInstance "bad query")) "q" 0 1 =
      { content := [{ type := "text",
                      text := "Error querying metrics: " ++ errorMessageOf (.errorInstance "bad query") }],
        isError := some true }
    ∧ getMonitorHandler (fun _ => .error .nonError) 7 =
      { content := [{ type := "text",
                      text := "Error getting monitor: " ++ errorMessageOf .nonError }],
        isError := some true } :=
  ⟨(toolHandlers_reject_with_structured_error
      (fun _ => .error (.errorInstance "bad query"))
      (fun _ => .error (.errorInstance "bad query") : ListLogsRequest → Except Thrown Json)
      (fun _ => .error (.errorInstance "bad query"))
      (fun _ => .error (.errorInstance "bad query"))
      (fun _ => .error (.errorInstance "bad query"))
      (.errorInstance "bad query")).1 "q" 0 1 rfl,
   (toolHandlers_reject_with_structured_error
      (fun _ => .error .nonError)
      (fun _ => .error .nonError)
      (fun _ => .error .nonError)
      (fun _ => .error .nonError)
      (fun _ => .error .nonError)
      .nonError).2.2.1 7 rfl⟩

/-- C10: on success, every tool handler returns a result whose content is
exactly one element of type "text" whose text is the jsonStringify
serialization of the Datadog API response, and whose isError field is absent
(`none`). -/
theorem toolHandlers_success_result
    (mApi : QueryMetricsRequest → Except Thrown Json)
    (lApi : ListLogsRequest → Except Thrown Json)
    (gApi : GetMonitorRequest → Except Thrown Json)
    (moApi : ListMonitorsParams → Except Thrown Json)
    (sApi : ListSpansRequest → Except Thrown Json)
    (response : Json) :
    (∀ query fromArg toArg,
      mApi { «from» := fromArg, «to» := toArg, query := query } = .ok response →
      queryMetricsHandler mApi query fromArg toArg =
        { content := [{ type := "text", text := jsonStringify response }], isError := none })
    ∧ (∀ query fromArg toArg limitArg,
      lApi (searchLogsRequest query fromArg toArg limitArg) = .ok response →
      searchLogsHandler lApi query fromArg toArg limitArg =
        { content := [{ type := "text", text := jsonStringify response }], isError := none })
    ∧ (∀ monitorId,
      gApi { monitorId := monitorId } = .ok response →
      getMonitorHandler gApi monitorId =
        { content := [{ type := "text", text := jsonStringify response }], isError := none })
    ∧ (∀ tags name,
      moApi (listMonitorsParams tags name) = .ok response →
      listMonitorsHandler moApi tags name =
        { content := [{ type := "text", text := jsonStringify response }], isError := none })
    ∧ (∀ query fromArg toArg limitArg,
      sApi (searchSpansRequest query fromArg toArg limitArg) = .ok response →
      searchSpansHandler sApi query fromArg toArg limitArg =
        { content := [{ type := "text", text := jsonStringify response }], isError := none }) := by
  refine ⟨?_, ?_, ?_, ?_, ?_⟩
  · intro query fromArg toArg h
    simp [queryMetricsHandler, h]
  · intro query fromArg toArg limitArg h
    simp [searchLogsHandler, h]
  · intro monitorId h
    simp [getMonitorHandler, h]
  · intro tags name h
    simp [listMonitorsHandler, h]
  · intro query fromArg toArg limitArg h
    simp [searchSpansHandler, h]

/-- Witness for C10: a resolved logs call returns the serialized response as
the single text content element with no error flag. -/
theorem toolHandlers_success_result_witness :
    searchLogsHandler (fun _ => .ok (Json.str "ok")) "q" "now-15m" "now" none =
      { content := [{ type := "text", text := jsonStringify (Json.str "ok") }],
        isError := none } :=
  (toolHandlers_success_result
    (fun _ => .ok (Json.str "ok"))
    (fun _ => .ok (Json.str "ok"))
    (fun _ => .ok (Json.str "ok"))
    (fun _ => .ok (Json.str "ok"))
    (fun _ => .ok (Json.str "ok"))
    (Json.str "ok")).2.1 "q" "now-15m" "now" none rfl

/-- C3: every log record emitted through the server's logger is written to the
standard-error stream and never to standard output, for every LOG_LEVEL
setting and every record (hence for every logging call in every tool
handler). -/
theorem logger_writes_only_to_stderr (envLogLevel : Option String) (record : String) :
    emitRecord (createLogger envLogLevel) record ≠ []
    ∧ (∀ w ∈ emitRecord (createLogger envLogLevel) record,
        w.1 = StdStream.stderr ∧ w.2 = record)
    ∧ (∀ s, (StdStream.stdout, s) ∉ emitRecord (createLogger envLogLevel) record) := by
  simp [emitRecord, createLogger]

/-- Witness for C3: a record logged with the default level reaches stderr and
does not reach stdout. -/
theorem logger_writes_only_to_stderr_witness :
    ((StdStream.stderr, "Registering tools") ∈ emitRecord (createLogger none) "Registering tools")
    ∧ ((StdStream.stdout, "Registering tools") ∉ emitRecord (createLogger none) "Registering tools") :=
  ⟨by simp [emitRecord, createLogger],
   (logger_writes_only_to_stderr none "Registering tools").2.2 "Registering tools"⟩

/-- C2: registerTools registers query_metrics iff the metrics domain is
enabled, search_logs iff logs is enabled, get_monitor and list_monitors iff
monitors is enabled, search_spans iff traces is enabled, and registers nothing
belonging to a domain outside the enabled list. -/
theorem registerTools_filters_by_domain (enabledDomains : List Domain) :
    ("query_metrics" ∈ registeredNames (registerTools enabledDomains)
      ↔ Domain.metrics ∈ enabledDomains)
    ∧ ("search_logs" ∈ registeredNames (registerTools enabledDomains)
      ↔ Domain.logs ∈ enabledDomains)
    ∧ ("get_monitor" ∈ registeredNames (registerTools enabledDomains)
      ↔ Domain.monitors ∈ enabledDomains)
    ∧ ("list_monitors" ∈ registeredNames (registerTools enabledDomains)
      ↔ Domain.monitors ∈ enabledDomains)
    ∧ ("search_spans" ∈ registeredNames (registerTools enabledDomains)
      ↔ Domain.traces ∈ enabledDomains)
    ∧ (∀ r ∈ registerTools enabledDomains,
        (r.name = "query_metrics" ∧ Domain.metrics ∈ enabledDomains)
        ∨ (r.name = "search_logs" ∧ Domain.logs ∈ enabledDomains)
        ∨ (r.name = "get_monitor" ∧ Domain.monitors ∈ enabledDomains)
        ∨ (r.name = "list_monitors" ∧ Domain.monitors ∈ enabledDomains)
        ∨ (r.name = "search_spans" ∧ Domain.traces ∈ enabledDomains)) := by
  by_cases hm : Domain.metrics ∈ enabledDomains <;>
    by_cases hl : Domain.logs ∈ enabledDomains <;>
      by_cases hmo : Domain.monitors ∈ enabledDomains <;>
        by_cases ht : Domain.traces ∈ enabledDomains <;>
          simp [registerTools, configureMetricsTools, configureLogsTools,
            configureMonitorsTools, configureTracesTools, registeredNames,
            hm, hl, hmo, ht]

/-- Witness for C2: with only the metrics domain enabled, query_metrics is
registered and search_logs is not. -/
theorem registerTools_filters_by_domain_witness :
    ("query_metrics" ∈ registeredNames (registerTools [Domain.metrics]))
    ∧ ¬ ("search_logs" ∈ registeredNames (registerTools [Domain.metrics])) :=
  ⟨(registerTools_filters_by_domain [Domain.metrics]).1.mpr (by simp),
   fun h => by
     have hmem := (registerTools_filters_by_domain [Domain.metrics]).2.1.mp h
     simp at hmem⟩

/-- C8: the search_logs request carries page.limit 100 when the limit argument
is omitted and exactly the provided value otherwise, and passes query, from
and to through unchanged in its filter; the search_spans request does the same
under body.data.attributes. -/
theorem search_requests_page_limit (query fromArg toArg : String) :
    ((searchLogsRequest query fromArg toArg none).body.page.limit = 100)
    ∧ (∀ n : Int, (searchLogsRequest query fromArg toArg (some n)).body.page.limit = n)
    ∧ (∀ limitArg, (searchLogsRequest query fromArg toArg limitArg).body.filter =
        { query := query, «from» := fromArg, «to» := toArg })
    ∧ ((searchSpansRequest query fromArg toArg none).body.data.attributes.page.limit = 100)
    ∧ (∀ n : Int, (searchSpansRequest query fromArg toArg (some n)).body.data.attributes.page.limit = n)
    ∧ (∀ limitArg, (searchSpansRequest query fromArg toArg limitArg).body.data.attributes.filter =
        { query := query, «from» := fromArg, «to» := toArg }) :=
  ⟨rfl, fun _ => rfl, fun _ => rfl, rfl, fun _ => rfl, fun _ => rfl⟩

/-- Witness for C8: the logs request defaults its page limit to 100 when the
limit argument is omitted and carries exactly a provided limit of 50. -/
theorem search_requests_page_limit_witness :
    (searchLogsRequest "status:error" "now-15m" "now" none).body.page.limit = 100
    ∧ (searchLogsRequest "status:error" "now-15m" "now" (some 50)).body.page.limit = 50
    ∧ (searchSpansRequest "service:web" "now-1h" "now" none).body.data.attributes.page.limit = 100 :=
  ⟨(search_requests_page_limit "status:error" "now-15m" "now").1,
   (search_requests_page_limit "status:error" "now-15m" "now").2.1 50,
   (search_requests_page_limit "service:web" "now-1h" "now").2.2.2.1⟩

theorem domainOfString_name {d : String} {dom : Domain}
    (h : domainOfString d = some dom) : dom.name = d := by
  unfold domainOfString at h
  split at h <;> simp only [Option.some.injEq, reduceCtorEq] at h <;> subst h <;> rfl

theorem parseDomainsGo_ok (domains : List String) :
    ∀ acc, (∀ d ∈ domains, (domainOfString d).isSome) →
    parseDomainsGo domains acc = .ok (acc ++ domains.filterMap domainOfString) := by
  induction domains with
  | nil => intro acc _; simp [parseDomainsGo]
  | cons d rest ih =>
    intro acc h
    obtain ⟨dom, hdom⟩ := Option.isSome_iff_exists.mp (h d (by simp))
    simp only [parseDomainsGo, hdom]
    rw [ih (acc ++ [dom]) (fun x hx => h x (by simp [hx]))]
    simp [List.filterMap_cons, hdom]

theorem parseDomainsGo_error (pre : List String) :
    ∀ acc bad rest, domainOfString bad = none →
    (∀ d ∈ pre, (domainOfString d).isSome) →
    parseDomainsGo (pre ++ bad :: rest) acc =
      .error ("Invalid domain: " ++ bad ++ ". Valid domains: "
        ++ String.intercalate ", " (ALL_DOMAINS.map Domain.name)) := by
  induction pre with
  | nil => intro acc bad rest hbad _; simp [parseDomainsGo, hbad]
  | cons d pre2 ih =>
    intro acc bad rest hbad h
    obtain ⟨dom, hdom⟩ := Option.isSome_iff_exists.mp (h d (by simp))
    rw [List.cons_append, parseDomainsGo, hdom]
    exact ih _ bad rest hbad (fun x hx => h x (by simp [hx]))

theorem filterMap_domain_names (domains : List String)
    (h : ∀ d ∈ domains, (domainOfString d).isSome) :
    (domains.filterMap domainOfString).map Domain.name = domains := by
  induction domains with
  | nil => simp
  | cons d rest ih =>
    obtain ⟨dom, hdom⟩ := Option.isSome_iff_exists.mp (h d (by simp))
    simp [List.filterMap_cons, hdom, domainOfString_name hdom,
      ih (fun x hx => h x (by simp [hx]))]

/-- C9: parseDomains maps a non-empty all-valid input list to exactly the
corresponding domains in order, maps the empty list to all four domains, and
throws an error naming the first element that is not one of metrics, logs,
monitors, traces. -/
theorem parseDomains_behavior :
    (∀ domains : List String, domains ≠ [] →
      (∀ d ∈ domains, (domainOfString d).isSome) →
      ∃ l, parseDomains domains = .ok l ∧ l.map Domain.name = domains)
    ∧ parseDomains [] = .ok ALL_DOMAINS
    ∧ (∀ pre bad rest, domainOfString bad = none →
        (∀ d ∈ pre, (domainOfString d).isSome) →
        parseDomains (pre ++ bad :: rest) =
          .error ("Invalid domain: " ++ bad ++ ". Valid domains: "
            ++ "metrics, logs, monitors, traces")) := by
  refine ⟨?_, rfl, ?_⟩
  · intro domains hne h
    refine ⟨domains.filterMap domainOfString, ?_, filterMap_domain_names domains h⟩
    unfold parseDomains
    rw [parseDomainsGo_ok domains [] h]
    cases domains with
    | nil => exact absurd rfl hne
    | cons d rest =>
      obtain ⟨dom, hdom⟩ := Option.isSome_iff_exists.mp (h d (by simp))
      simp [List.filterMap_cons, hdom]
  · intro pre bad rest hbad hpre
    unfold parseDomains
    rw [parseDomainsGo_error pre [] bad rest hbad hpre]
    rfl

/-- Witness for C9: a valid two-element list is returned unchanged, and a list
with the invalid element "bogus" in the middle throws naming it. -/
theorem parseDomains_behavior_witness :
    (∃ l, parseDomains ["logs", "metrics"] = .ok l
      ∧ l.map Domain.name = ["logs", "metrics"])
    ∧ parseDomains ["logs", "bogus", "metrics"] =
        .error "Invalid domain: bogus. Valid domains: metrics, logs, monitors, traces" :=
  ⟨parseDomains_behavior.1 ["logs", "metrics"] (by simp) (by decide),
   by simpa using parseDomains_behavior.2.2 ["logs"] "bogus" ["metrics"] (by decide) (by decide)⟩

theorem deliverAll_delivered (resps : List (Nat × Json)) :
    ∀ (P : List Nat) (D : List (Nat × Json)), (resps.map Prod.fst).Nodup →
    (deliverAll ⟨P, D⟩ resps).delivered
      = D ++ resps.filter (fun r => decide (r.1 ∈ P)) := by
  induction resps with
  | nil => intro P D _; simp [deliverAll]
  | cons r rest ih =>
    intro P D hn
    simp only [List.map_cons, List.nodup_cons] at hn
    obtain ⟨hr, hrest⟩ := hn
    by_cases h : r.1 ∈ P
    · have hstep : deliverResponse ⟨P, D⟩ r = ⟨P.erase r.1, D ++ [r]⟩ := by
        simp [deliverResponse, h]
      have hfilter : rest.filter (fun x => decide (x.1 ∈ P.erase r.1))
          = rest.filter (fun x => decide (x.1 ∈ P)) := by
        apply List.filter_congr
        intro x hx
        have hne : x.1 ≠ r.1 := fun e => hr (e ▸ List.mem_map_of_mem Prod.fst hx)
        simp [List.mem_erase_of_ne hne]
      rw [show deliverAll ⟨P, D⟩ (r :: rest) = deliverAll (deliverResponse ⟨P, D⟩ r) rest
            from rfl,
          hstep, ih (P.erase r.1) (D ++ [r]) hrest, hfilter]
      simp [List.filter_cons, h]
    · have hstep : deliverResponse ⟨P, D⟩ r = ⟨P, D⟩ := by
        simp [deliverResponse, h]
      rw [show deliverAll ⟨P, D⟩ (r :: rest) = deliverAll (deliverResponse ⟨P, D⟩ r) rest
            from rfl,
          hstep, ih P D hrest]
      simp [List.filter_cons, h]

/-- C4: for any set of outstanding calls on one Connection and any arrival
sequence of responses with distinct ids, the engine delivers to the calls
exactly the responses whose id matches a pending call (first conjunct), each
call receives at most one response (second conjunct), and any reordering of
the arrival sequence yields the same deliveries up to permutation (third
conjunct). -/
theorem rpc_response_routing_order_independent (pending : List Nat)
    (resps : List (Nat × Json)) (hn : (resps.map Prod.fst).Nodup) :
    (∀ idp, idp ∈ (deliverAll ⟨pending, []⟩ resps).delivered
      ↔ idp.1 ∈ pending ∧ idp ∈ resps)
    ∧ ((deliverAll ⟨pending, []⟩ resps).delivered.map Prod.fst).Nodup
    ∧ (∀ resps2, resps2.Perm resps →
        ((deliverAll ⟨pending, []⟩ resps2).delivered).Perm
          ((deliverAll ⟨pending, []⟩ resps).delivered)) := by
  have hchar := deliverAll_delivered resps pending [] hn
  refine ⟨?_, ?_, ?_⟩
  · intro idp
    rw [hchar]
    simp [List.mem_filter, and_comm]
  · rw [hchar]
    simp only [List.nil_append]
    exact hn.sublist ((List.filter_sublist _).map Prod.fst)
  · intro resps2 hperm
    have hn2 : (resps2.map Prod.fst).Nodup := ((hperm.map Prod.fst).symm.nodup hn : _)
    rw [hchar, deliverAll_delivered resps2 pending [] hn2]
    simpa using hperm.filter (fun r => decide (r.1 ∈ pending))

/-- Witness for C4: with calls 1 and 2 outstanding and the responses arriving
in reverse order of issue, the response with id 1 is delivered to call 1. -/
theorem rpc_response_routing_order_independent_witness :
    (1, Json.null) ∈ (deliverAll ⟨[1, 2], []⟩ [(2, Json.bool true), (1, Json.null)]).delivered :=
  ((rpc_response_routing_order_independent [1, 2] [(2, Json.bool true), (1, Json.null)]
      (by simp)).1 (1, Json.null)).mpr ⟨by simp, by simp⟩

theorem runCalls_gate (m : String) (rest : List CallKind) :
    ∀ (pre : List CallKind) (st : ConnState), st.negotiated = false →
    CallKind.negotiate ∉ pre →
    (runCalls st (pre ++ CallKind.other m :: rest)).get? pre.length
      = some CallOutcome.rejectedNotNegotiated := by
  intro pre
  induction pre with
  | nil =>
    intro st hst _
    simp [runCalls, stepCall, hst]
  | cons c pre2 ih =>
    intro st hst hpre
    cases c with
    | negotiate => exact absurd (by simp) hpre
    | other m2 =>
      have hpre2 : CallKind.negotiate ∉ pre2 := fun hmem => hpre (by simp [hmem])
      have hstep : stepCall st (CallKind.other m2) = (st, CallOutcome.rejectedNotNegotiated) := by
        simp [stepCall, hst]
      rw [List.cons_append, runCalls, hstep]
      simpa using ih st hst hpre2

/-- C5: on a fresh Connection, a non-negotiation call issued at any position
before the first negotiation call is rejected with NotNegotiated — no
non-negotiation call succeeds before negotiation has completed. -/
theorem calls_before_negotiation_rejected (pre : List CallKind) (m : String)
    (rest : List CallKind) (hpre : CallKind.negotiate ∉ pre) :
    (runCalls initialConn (pre ++ CallKind.other m :: rest)).get? pre.length
      = some CallOutcome.rejectedNotNegotiated :=
  runCalls_gate m rest pre initialConn rfl hpre

/-- Witness for C5: the second of two calls issued before negotiation is
rejected with NotNegotiated even though a negotiation call follows later. -/
theorem calls_before_negotiation_rejected_witness :
    (runCalls initialConn
      ([CallKind.other "tools/list"] ++ CallKind.other "tools/call" :: [CallKind.negotiate])).get? 1
      = some CallOutcome.rejectedNotNegotiated :=
  calls_before_negotiation_rejected [CallKind.other "tools/list"] "tools/call"
    [CallKind.negotiate] (by decide)

theorem get_ok_mem {store : StateStore} {k w : String}
    (h : store.get k = .ok w) : k ∈ store.map Prod.fst := by
  unfold StateStore.get at h
  cases hf : store.find? (fun e => decide (e.1 = k)) with
  | none => rw [hf] at h; exact absurd h (by simp)
  | some e =>
    have hm := List.mem_of_find?_eq_some hf
    have hp := List.find?_some hf
    have hek : e.1 = k := by simpa using hp
    exact hek ▸ List.mem_map_of_mem Prod.fst hm

theorem set_eq_of_mem {store : StateStore} {k : String}
    (hk : k ∈ store.map Prod.fst) (v : String) :
    store.set k v = .error (.duplicateKey k) := by
  obtain ⟨e, he, hek⟩ := List.mem_map.mp hk
  have hany : (store.any fun e => decide (e.1 = k)) = true :=
    List.any_eq_true.mpr ⟨e, he, by simp [hek]⟩
  simp [StateStore.set, hany]

theorem applySets_cons_error {store : StateStore} {k v : String} {e : StoreError}
    (h : store.set k v = .error e) (rest : List (String × String)) :
    applySets store ((k, v) :: rest) = applySets store rest := by
  simp [applySets, h]

theorem applySets_nodup_keys : ∀ (writes : List (String × String)) (store : StateStore),
    (store.map Prod.fst).Nodup → ((applySets store writes).map Prod.fst).Nodup := by
  intro writes
  induction writes with
  | nil => intro store h; simpa [applySets] using h
  | cons kv rest ih =>
    intro store h
    obtain ⟨k, v⟩ := kv
    by_cases hany : (store.any fun e => decide (e.1 = k)) = true
    · have hset : store.set k v = .error (.duplicateKey k) := by
        simp [StateStore.set, hany]
      rw [applySets_cons_error hset]
      exact ih store h
    · have hset : store.set k v = .ok (store ++ [(k, v)]) := by
        simp [StateStore.set, hany]
      have hk : k ∉ store.map Prod.fst := by
        intro hmem
        obtain ⟨e, he, hek⟩ := List.mem_map.mp hmem
        exact hany (List.any_eq_true.mpr ⟨e, he, by simp [hek]⟩)
      have happ : applySets store ((k, v) :: rest) = applySets (store ++ [(k, v)]) rest := by
        simp [applySets, hset]
      rw [happ]
      apply ih
      simp [List.nodup_append, h, hk]

/-- C6: when a key has already been set in a session's State Store, a further
set of that key fails with DuplicateKey, the session's store is unchanged by
the failed set (so the existing binding still reads back), and any sequence of
writes applied through set from an empty store leaves each key bound at most
once. -/
theorem stateStore_set_write_once (store : StateStore) (key value w : String)
    (h : store.get key = .ok w) :
    store.set key value = .error (.duplicateKey key)
    ∧ applySets store [(key, value)] = store
    ∧ store.get key = .ok w
    ∧ (∀ writes, ((applySets [] writes).map Prod.fst).Nodup) := by
  have hmem := get_ok_mem h
  have hset := set_eq_of_mem hmem value
  exact ⟨hset, by rw [applySets_cons_error hset]; rfl, h,
    fun writes => applySets_nodup_keys writes [] (by simp)⟩

/-- Witness for C6: re-setting the already-bound key "investigate" fails with
DuplicateKey and leaves the store as it was. -/
theorem stateStore_set_write_once_witness :
    StateStore.set [("investigate", "out")] "investigate" "other"
      = Except.error (StoreError.duplicateKey "investigate")
    ∧ applySets [("investigate", "out")] [("investigate", "other")] = [("investigate", "out")] :=
  ⟨(stateStore_set_write_once [("investigate", "out")] "investigate" "other" "out" rfl).1,
   (stateStore_set_write_once [("investigate", "out")] "investigate" "other" "out" rfl).2.1⟩

theorem set_ok_append {store store2 : StateStore} {k v : String}
    (h : store.set k v = .ok store2) : store2 = store ++ [(k, v)] := by
  unfold StateStore.set at h
  split at h <;> simp_all

theorem runStages_failed_char (stages : List Stage) :
    ∀ (i : Nat) (store : StateStore) (ran : List Nat) (j : Nat) (cause : String)
      (store2 : StateStore) (ran2 : List Nat),
      runStages stages i store ran = (.failed j cause, store2, ran2) →
      ∃ k, k < stages.length ∧ j = i + k
        ∧ store2.map Prod.fst = store.map Prod.fst ++ (stages.take k).map Stage.key
        ∧ ran2 = ran ++ List.range' i (k + 1) := by
  induction stages with
  | nil =>
    intro i store ran j cause store2 ran2 h
    exact absurd h (by simp [runStages])
  | cons stage rest ih =>
    intro i store ran j cause store2 ran2 h
    cases hbody : stage.body store with
    | error c =>
      simp only [runStages, hbody, Prod.mk.injEq, PipeStatus.failed.injEq] at h
      obtain ⟨⟨hj, _⟩, hst, hran⟩ := h
      exact ⟨0, by simp, by omega, by simp [hst.symm], by rw [← hran]; rfl⟩
    | ok output =>
      cases hset : store.set stage.key output with
      | error e =>
        simp only [runStages, hbody, hset, Prod.mk.injEq, PipeStatus.failed.injEq] at h
        obtain ⟨⟨hj, _⟩, hst, hran⟩ := h
        exact ⟨0, by simp, by omega, by simp [hst.symm], by rw [← hran]; rfl⟩
      | ok store3 =>
        simp only [runStages, hbody, hset] at h
        obtain ⟨k, hk, hj, hstore, hran⟩ := ih (i + 1) store3 (ran ++ [i]) j cause store2 ran2 h
        refine ⟨k + 1, by simpa using Nat.succ_lt_succ hk, by omega, ?_, ?_⟩
        · rw [hstore, set_ok_append hset]
          simp [List.take_succ_cons]
        · rw [hran]
          rw [show List.range' i (k + 1 + 1) = i :: List.range' (i + 1) (k + 1) from
            List.range'_succ i (k + 1) 1]
          simp

/-- C7: whenever a pipeline run ends as Failed(j, cause), the failing stage
index j is in range, the State Store holds exactly the output keys of the
stages before j in order (so no output was written under stage j's key), and
the stages that started are exactly 0..j — no stage after j ran. -/
theorem pipeline_stage_failure_halts (stages : List Stage) (j : Nat) (cause : String)
    (store : StateStore) (ran : List Nat)
    (h : runPipeline stages = (.failed j cause, store, ran)) :
    j < stages.length
    ∧ store.map Prod.fst = (stages.take j).map Stage.key
    ∧ ran = List.range (j + 1) := by
  obtain ⟨k, hk, hj, hstore, hran⟩ := runStages_failed_char stages 0 [] [] j cause store ran h
  have hkj : k = j := by omega
  subst hkj
  refine ⟨hk, by simpa using hstore, ?_⟩
  rw [hran, List.range_eq_range']
  simp

/-- Witness for C7: in the three-stage demo pipeline whose second stage fails,
the store holds exactly stage 0's key and exactly stages 0 and 1 ran. -/
theorem pipeline_stage_failure_halts_witness :
    1 < demoStages.length
    ∧ ([("k0", "out0")] : StateStore).map Prod.fst = (demoStages.take 1).map Stage.key
    ∧ [0, 1] = List.range 2 :=
  pipeline_stage_failure_halts demoStages 1 "boom" [("k0", "out0")] [0, 1] rfl

end Mira
